import Mathlib

/-!
Verification of the job execution engine of the AutoPosting bot (`bot.py`).

The engine's pure logic is embedded shallowly:
* the Telegram transport is an oracle `Channel : Nat → Option Msg`
  (`none` models an empty / deleted / never-existing message id, exactly
  the `msg.empty` test in `process_job_batch`);
* the outcome of each transport copy (`msg.copy`) is an oracle
  `Nat → SendOutcome` (success with a destination id, a generic failure, or a
  raised `FloodWait`); `send_custom_message` wraps the copy in a blanket
  `except Exception` that swallows every outcome but success into `None` —
  `FloodWait` included, since pyrogram's `FloodWait` subclasses `Exception`;
* the MongoDB collections `jobs` / `forwarded_messages` become a `Store`
  record and the `Database` methods become pure state transformers.
-/

namespace AutoPosting

/-- A present source message, reduced to the two observations the engine makes:
`msg.media` (truthiness of the media payload) and `msg.text` (truthiness of the
text field).  An absent message is `none` in the `Channel` oracle. -/
structure Msg where
  media : Bool
  text : Bool
deriving DecidableEq

/-- The source channel as seen through `app.get_messages`: for every id either
a message or emptiness. -/
abbrev Channel := Nat → Option Msg

/-- One `jobs` document, with the fields the execution engine reads.
`end_post_id = 999999` is the code's "all future posts" sentinel
(`handle_end_post`).  `last_forwarded_id` is the cursor. -/
structure Job where
  user_id : Nat
  source_channel_id : Int
  target_channel_id : Int
  start_post_id : Nat
  end_post_id : Nat
  batch_size : Nat
  recurring_time : Nat
  delete_time : Nat
  filter_type : String
  custom_caption : String
  button_text : String
  button_url : String
  is_active : Bool
  last_forwarded_id : Nat
  created_at : Nat
  updated_at : Nat
deriving DecidableEq

/-- `AutoposterBot.message_matches_filter`: "all" accepts everything presented,
"media" requires a media payload, "text" requires text and no media, any other
filter string matches nothing. -/
def message_matches_filter (msg : Msg) (filter_type : String) : Bool :=
  if filter_type = "all" then true
  else if filter_type = "media" then msg.media
  else if filter_type = "text" then msg.text && !msg.media
  else false

/-- `fetch_limit = min(job['batch_size'] * 5, 100)` in `process_job_batch`. -/
def fetch_limit (job : Job) : Nat :=
  min (job.batch_size * 5) 100

/-- The contiguous id window `range(current_message_id, end_id)` fetched by one
`get_messages` call: `end_id = current + fetch_limit`, clipped to
`end_post_id + 1` when the end bound is not the 999999 sentinel. -/
def window_ids (job : Job) (current : Nat) : List Nat :=
  let endId := current + fetch_limit job
  let endId := if job.end_post_id ≠ 999999 then min endId (job.end_post_id + 1) else endId
  List.range' current (endId - current)

/-- The `for msg in msgs` loop of `process_job_batch` over one fetched window:
every visited id updates `last_checked_message_id`, empty ids are skipped,
filter matches are appended to the batch, and the loop breaks as soon as the
batch reaches `batch_size`.  Returns (last checked id, matches, examined ids). -/
def scan_window (ch : Channel) (filter_type : String) (batch_size : Nat) :
    List Nat → Nat → List Nat → List Nat → Nat × List Nat × List Nat
  | [], lastChecked, found, examined => (lastChecked, found, examined)
  | id :: rest, _, found, examined =>
    match ch id with
    | none => scan_window ch filter_type batch_size rest id found (examined ++ [id])
    | some m =>
      if message_matches_filter m filter_type then
        if batch_size ≤ found.length + 1 then (id, found ++ [id], examined ++ [id])
        else scan_window ch filter_type batch_size rest id (found ++ [id]) (examined ++ [id])
      else scan_window ch filter_type batch_size rest id found (examined ++ [id])

/-- Result of the scanning phase of `process_job_batch`:
the ids accumulated in `messages_to_forward`, the final
`last_checked_message_id`, the final `current_message_id`, the ids physically
iterated over (in order), and a flag recording fuel exhaustion of the
embedding (never set when the fuel bound of `run_scan` suffices). -/
structure ScanResult where
  messages_to_forward : List Nat
  lastChecked : Nat
  current : Nat
  examined : List Nat
  fuelOut : Bool
deriving DecidableEq

/-- The `while len(messages_to_forward) < batch_size` loop of
`process_job_batch`.  Per iteration: stop when the batch is full; stop when a
finite end bound is passed; fetch the next window (stop if it is empty); walk
it with `scan_window`; set `current = last_checked + 1`; if the batch is still
short and the end bound is the 999999 sentinel, stop and wait for new posts. -/
def scan_loop (ch : Channel) (job : Job) :
    Nat → Nat → Nat → List Nat → List Nat → ScanResult
  | 0, current, lastChecked, found, examined =>
      ⟨found, lastChecked, current, examined, true⟩
  | fuel + 1, current, lastChecked, found, examined =>
    if job.batch_size ≤ found.length then
      ⟨found, lastChecked, current, examined, false⟩
    else if job.end_post_id ≠ 999999 ∧ job.end_post_id < current then
      ⟨found, lastChecked, current, examined, false⟩
    else
      let ids := window_ids job current
      if ids.isEmpty then ⟨found, lastChecked, current, examined, false⟩
      else
        let r := scan_window ch job.filter_type job.batch_size ids lastChecked found examined
        let current2 := r.1 + 1
        if r.2.1.length < job.batch_size ∧ job.end_post_id = 999999 then
          ⟨r.2.1, r.1, current2, r.2.2, false⟩
        else
          scan_loop ch job fuel current2 r.1 r.2.1 r.2.2

/-- Fuel for `scan_loop`: each productive iteration advances `current`, and a
finite bound stops the loop once `current > end_post_id`, so `end_post_id + 2`
iterations always suffice (the sentinel case stops after one window). -/
def scan_fuel (job : Job) : Nat :=
  job.end_post_id + 2

/-- The scanning phase of `process_job_batch`, started at
`current_message_id = max(last_forwarded_id + 1, start_post_id)` with
`last_checked_message_id = last_forwarded_id` and an empty batch. -/
def run_scan (ch : Channel) (job : Job) : ScanResult :=
  scan_loop ch job (scan_fuel job)
    (max (job.last_forwarded_id + 1) job.start_post_id)
    job.last_forwarded_id [] []

/-- Outcome of the underlying transport copy (`msg.copy`) for a matched id:
a copy with a destination id, a generic failure, or a raised `FloodWait`. -/
inductive SendOutcome where
  | sent (dest_id : Nat)
  | failed
  | floodWait (seconds : Nat)
deriving DecidableEq

/-- `AutoposterBot.send_custom_message`: the copy is wrapped in
`except Exception ... return None`, so every non-success outcome — a raised
`FloodWait` included, because pyrogram's `FloodWait` subclasses `Exception` —
is swallowed and reported as `None`; only a successful copy returns the new
message. -/
def send_custom_message (send : Nat → SendOutcome) (m : Nat) : Option Nat :=
  match send m with
  | .sent d => some d
  | .failed => none
  | .floodWait _ => none

/-- Effect of the forwarding loop of `process_job_batch`:
forward records created (original id, forwarded id), the sleeps performed by
the loop's `except FloodWait` handler, and the matched ids abandoned by its
`break`.  Because `send_custom_message` swallows every exception and nothing
else in the loop body raises a `FloodWait`, that handler is unreachable for
send rate-limits: both lists are provably always empty. -/
structure ForwardResult where
  records : List (Nat × Nat)
  sleeps : List Nat
  skipped : List Nat
deriving DecidableEq

/-- The `for msg in messages_to_forward` loop of `process_job_batch`:
each match goes through `send_custom_message`; a returned message is
recorded, a `None` (generic failure or swallowed rate-limit) is skipped, and
the loop always continues to the next match — its `except FloodWait` branch
(sleep, then `break`) never fires, since the send never lets a `FloodWait`
escape. -/
def forward_batch (send : Nat → SendOutcome) : List Nat → ForwardResult
  | [] => ⟨[], [], []⟩
  | m :: rest =>
    match send_custom_message send m with
    | some d =>
      let r := forward_batch send rest
      ⟨(m, d) :: r.records, r.sleeps, r.skipped⟩
    | none => forward_batch send rest

/-- Effects of one whole `process_job_batch` call. -/
structure BatchEffects where
  scan : ScanResult
  fwd : ForwardResult
deriving DecidableEq

/-- One `process_job_batch` call: scan, then forward the batch; the final
`update_last_forwarded` commit takes the value `scan.lastChecked`,
unconditionally. -/
def process_job_batch (ch : Channel) (send : Nat → SendOutcome) (job : Job) : BatchEffects :=
  let s := run_scan ch job
  ⟨s, forward_batch send s.messages_to_forward⟩

/-- The sleep at the end of a `run_job` cycle, in seconds: twice the recurring
interval when the end bound is not the 999999 sentinel and the cursor loaded at
the top of the cycle has reached or passed it, else the interval itself. -/
def cycle_sleep_seconds (job : Job) : Nat :=
  if job.end_post_id ≠ 999999 ∧ job.end_post_id ≤ job.last_forwarded_id then
    job.recurring_time * 60 * 2
  else
    job.recurring_time * 60

/-- `handle_end_post` on a numeric end input: the textual shortcuts
latest / all / 999999 and a link to message 999999 all yield the stored end id
999999; any other id below the start id is rejected (`none`); the rest are
stored as given. -/
def handle_end_post_store (start_post_id message_id : Nat) : Option Nat :=
  if message_id < start_post_id ∧ message_id ≠ 999999 then none
  else some message_id

/-- A job fixture: start 100, unbounded end, batch 5, interval 10 minutes,
filter "all", cursor 100. -/
def jobU : Job :=
  ⟨1, 10, 20, 100, 999999, 5, 10, 0, "all", "", "", "", true, 100, 0, 0⟩

example : message_matches_filter ⟨true, false⟩ "media" = true := by decide
example : message_matches_filter ⟨true, true⟩ "text" = false := by decide
example : fetch_limit jobU = 25 := by decide
example : window_ids jobU 101 = List.range' 101 25 := by decide

/-- One `forwarded_messages` document. -/
structure FwdRecord where
  job_id : Nat
  original_message_id : Nat
  forwarded_message_id : Nat
  forwarded_at : Nat
deriving DecidableEq

/-- The persistent store: the `jobs` collection (id, document) and the
`forwarded_messages` collection. -/
structure Store where
  jobs : List (Nat × Job)
  forwarded_messages : List FwdRecord
deriving DecidableEq

namespace Database

/-- `Database.get_job`: look a job document up by id. -/
def get_job (s : Store) (job_id : Nat) : Option Job :=
  (s.jobs.find? (fun p => p.1 = job_id)).map (fun p => p.2)

/-- `Database.update_job_status`: set `is_active` and refresh `updated_at` on
the job with the given id. -/
def update_job_status (s : Store) (job_id : Nat) (is_active : Bool) (now : Nat) : Store :=
  { s with jobs := s.jobs.map (fun p =>
      if p.1 = job_id then (p.1, { p.2 with is_active := is_active, updated_at := now }) else p) }

/-- `Database.update_last_forwarded`: set `last_forwarded_id` (the cursor) and
refresh `updated_at` on the job with the given id. -/
def update_last_forwarded (s : Store) (job_id : Nat) (message_id : Nat) (now : Nat) : Store :=
  { s with jobs := s.jobs.map (fun p =>
      if p.1 = job_id then (p.1, { p.2 with last_forwarded_id := message_id, updated_at := now }) else p) }

/-- `Database.add_forwarded_message`: insert one forward record. -/
def add_forwarded_message (s : Store) (job_id original_id forwarded_id now : Nat) : Store :=
  { s with forwarded_messages :=
      s.forwarded_messages ++ [⟨job_id, original_id, forwarded_id, now⟩] }

/-- `Database.delete_job`: delete the job's forward records, then the job. -/
def delete_job (s : Store) (job_id : Nat) : Store :=
  { jobs := s.jobs.filter (fun p => p.1 ≠ job_id),
    forwarded_messages := s.forwarded_messages.filter (fun r => r.job_id ≠ job_id) }

/-- `Database.reset_job_progress`: set the cursor to `start_post_id - 1`,
refresh `updated_at`, and delete all of the job's forward records. -/
def reset_job_progress (s : Store) (job_id start_post_id now : Nat) : Store :=
  { jobs := s.jobs.map (fun p =>
      if p.1 = job_id then
        (p.1, { p.2 with last_forwarded_id := start_post_id - 1, updated_at := now }) else p),
    forwarded_messages := s.forwarded_messages.filter (fun r => r.job_id ≠ job_id) }

/-- `Database.get_old_forwarded_messages`: for a positive retention window,
return the forwarded ids of the job's records strictly older than
`now - minutes_ago` and purge those records; a non-positive window returns
nothing and purges nothing.  Time is counted in minutes. -/
def get_old_forwarded_messages (s : Store) (job_id minutes_ago now : Nat) :
    List Nat × Store :=
  if minutes_ago = 0 then ([], s)
  else
    let cutoff := now - minutes_ago
    let old := s.forwarded_messages.filter
      (fun r => r.job_id = job_id ∧ r.forwarded_at < cutoff)
    let kept := s.forwarded_messages.filter
      (fun r => ¬(r.job_id = job_id ∧ r.forwarded_at < cutoff))
    (old.map (fun r => r.forwarded_message_id), { s with forwarded_messages := kept })

end Database

/-- The in-memory side of the bot relevant to job control:
the store plus the `active_jobs` registry of runner-enabled flags. -/
structure BotState where
  store : Store
  active_jobs : List (Nat × Bool)
deriving DecidableEq

/-- Outcome of a UI job action: success, the conflict alert shown for an
action that requires the job to be stopped, or the job-not-found alert.  Each
carries the (possibly updated) store. -/
inductive ActionResult where
  | ok (s : Store)
  | conflict (s : Store)
  | notFound (s : Store)
deriving DecidableEq

/-- `AutoposterBot.stop_job`: `none` when the job does not exist; otherwise
persist `is_active := false` unconditionally and flip the in-memory
`active_jobs` flag when present. -/
def stop_job (b : BotState) (job_id : Nat) (now : Nat) : Option BotState :=
  match Database.get_job b.store job_id with
  | none => none
  | some _ =>
    some { store := Database.update_job_status b.store job_id false now,
           active_jobs := b.active_jobs.map (fun p =>
             if p.1 = job_id then (p.1, false) else p) }

/-- `AutoposterBot.reset_job_progress_action`: reject a missing job, show the
stop-the-job-first alert for an active job (no store change), otherwise reset
the job's progress. -/
def reset_job_progress_action (s : Store) (job_id : Nat) (now : Nat) : ActionResult :=
  match Database.get_job s job_id with
  | none => .notFound s
  | some job =>
    if job.is_active then .conflict s
    else .ok (Database.reset_job_progress s job_id job.start_post_id now)

/-- `AutoposterBot.delete_job_confirmed`: reject a missing job; for an active
job first persist `is_active := false`; then delete the job and its records.
No conflict alert is ever produced. -/
def delete_job_confirmed (s : Store) (job_id : Nat) (now : Nat) : ActionResult :=
  match Database.get_job s job_id with
  | none => .notFound s
  | some job =>
    let s2 := if job.is_active then Database.update_job_status s job_id false now else s
    .ok (Database.delete_job s2 job_id)

/-- The database writes of one `process_job_batch` call: one
`add_forwarded_message` per successful send, then the unconditional
`update_last_forwarded` commit of `last_checked_message_id`. -/
def apply_batch (s : Store) (job_id : Nat) (e : BatchEffects) (now : Nat) : Store :=
  let s2 := e.fwd.records.foldl
    (fun acc p => Database.add_forwarded_message acc job_id p.1 p.2 now) s
  Database.update_last_forwarded s2 job_id e.scan.lastChecked now

section ScanWindowLemmas

variable (ch : Channel) (ft : String) (B : Nat)

theorem scan_window_nil (lc : Nat) (ms ex : List Nat) :
    scan_window ch ft B [] lc ms ex = (lc, ms, ex) := rfl

theorem scan_window_cons_none (id : Nat) (rest : List Nat) (lc : Nat) (ms ex : List Nat)
    (h : ch id = none) :
    scan_window ch ft B (id :: rest) lc ms ex =
      scan_window ch ft B rest id ms (ex ++ [id]) := by
  simp [scan_window, h]

theorem scan_window_cons_full (id : Nat) (rest : List Nat) (lc : Nat) (ms ex : List Nat)
    (m : Msg) (h : ch id = some m) (hm : message_matches_filter m ft = true)
    (hB : B ≤ ms.length + 1) :
    scan_window ch ft B (id :: rest) lc ms ex = (id, ms ++ [id], ex ++ [id]) := by
  simp [scan_window, h, hm, hB]

theorem scan_window_cons_go (id : Nat) (rest : List Nat) (lc : Nat) (ms ex : List Nat)
    (m : Msg) (h : ch id = some m) (hm : message_matches_filter m ft = true)
    (hB : ¬ B ≤ ms.length + 1) :
    scan_window ch ft B (id :: rest) lc ms ex =
      scan_window ch ft B rest id (ms ++ [id]) (ex ++ [id]) := by
  simp [scan_window, h, hm, hB]

theorem scan_window_cons_skip (id : Nat) (rest : List Nat) (lc : Nat) (ms ex : List Nat)
    (m : Msg) (h : ch id = some m) (hm : message_matches_filter m ft = false) :
    scan_window ch ft B (id :: rest) lc ms ex =
      scan_window ch ft B rest id ms (ex ++ [id]) := by
  simp [scan_window, h, hm]

/-- The examined ids of a window walk are the previously examined ids followed
by an initial segment of the window. -/
theorem scan_window_examined_prefix (ids : List Nat) :
    ∀ lc ms ex, ∃ k,
      (scan_window ch ft B ids lc ms ex).2.2 = ex ++ ids.take k := by
  induction ids with
  | nil => intro lc ms ex; exact ⟨0, by simp [scan_window_nil]⟩
  | cons id rest ih =>
    intro lc ms ex
    rcases hch : ch id with _ | m
    · rcases ih id ms (ex ++ [id]) with ⟨k, hk⟩
      exact ⟨k + 1, by simp [scan_window_cons_none ch ft B id rest lc ms ex hch, hk]⟩
    · rcases hm : message_matches_filter m ft with _ | _
      · rcases ih id ms (ex ++ [id]) with ⟨k, hk⟩
        exact ⟨k + 1, by simp [scan_window_cons_skip ch ft B id rest lc ms ex m hch hm, hk]⟩
      · by_cases hB : B ≤ ms.length + 1
        · exact ⟨1, by simp [scan_window_cons_full ch ft B id rest lc ms ex m hch hm hB]⟩
        · rcases ih id (ms ++ [id]) (ex ++ [id]) with ⟨k, hk⟩
          exact ⟨k + 1, by simp [scan_window_cons_go ch ft B id rest lc ms ex m hch hm hB, hk]⟩

/-- Every id in the batch after a window walk either was already in the batch,
or lies in the window, is non-empty, and passes the filter. -/
theorem scan_window_found_sub (ids : List Nat) :
    ∀ lc ms ex j, j ∈ (scan_window ch ft B ids lc ms ex).2.1 →
      j ∈ ms ∨ (j ∈ ids ∧ ∃ m, ch j = some m ∧ message_matches_filter m ft = true) := by
  induction ids with
  | nil => intro lc ms ex j hj; rw [scan_window_nil] at hj; exact Or.inl hj
  | cons id rest ih =>
    intro lc ms ex j hj
    rcases hch : ch id with _ | m
    · rw [scan_window_cons_none ch ft B id rest lc ms ex hch] at hj
      rcases ih id ms (ex ++ [id]) j hj with h | ⟨h1, h2⟩
      · exact Or.inl h
      · exact Or.inr ⟨List.mem_cons_of_mem id h1, h2⟩
    · rcases hm : message_matches_filter m ft with _ | _
      · rw [scan_window_cons_skip ch ft B id rest lc ms ex m hch hm] at hj
        rcases ih id ms (ex ++ [id]) j hj with h | ⟨h1, h2⟩
        · exact Or.inl h
        · exact Or.inr ⟨List.mem_cons_of_mem id h1, h2⟩
      · by_cases hB : B ≤ ms.length + 1
        · rw [scan_window_cons_full ch ft B id rest lc ms ex m hch hm hB] at hj
          simp only [List.mem_append, List.mem_singleton] at hj
          rcases hj with h | rfl
          · exact Or.inl h
          · exact Or.inr ⟨List.mem_cons_self j rest, m, hch, hm⟩
        · rw [scan_window_cons_go ch ft B id rest lc ms ex m hch hm hB] at hj
          rcases ih id (ms ++ [id]) (ex ++ [id]) j hj with h | ⟨h1, h2⟩
          · simp only [List.mem_append, List.mem_singleton] at h
            rcases h with h | rfl
            · exact Or.inl h
            · exact Or.inr ⟨List.mem_cons_self j rest, m, hch, hm⟩
          · exact Or.inr ⟨List.mem_cons_of_mem id h1, h2⟩

/-- A window walk that starts with a batch strictly below the bound never ends
with more than `B` entries. -/
theorem scan_window_len (ids : List Nat) :
    ∀ lc ms ex, ms.length < B →
      (scan_window ch ft B ids lc ms ex).2.1.length ≤ B := by
  induction ids with
  | nil => intro lc ms ex h; rw [scan_window_nil]; exact Nat.le_of_lt h
  | cons id rest ih =>
    intro lc ms ex h
    rcases hch : ch id with _ | m
    · rw [scan_window_cons_none ch ft B id rest lc ms ex hch]; exact ih id ms (ex ++ [id]) h
    · rcases hm : message_matches_filter m ft with _ | _
      · rw [scan_window_cons_skip ch ft B id rest lc ms ex m hch hm]
        exact ih id ms (ex ++ [id]) h
      · by_cases hB : B ≤ ms.length + 1
        · rw [scan_window_cons_full ch ft B id rest lc ms ex m hch hm hB]
          simpa using h
        · rw [scan_window_cons_go ch ft B id rest lc ms ex m hch hm hB]
          exact ih id (ms ++ [id]) (ex ++ [id]) (by simpa using Nat.lt_of_not_le hB)

/-- On a non-empty window, the final last-checked marker is one of the window
ids. -/
theorem scan_window_last_mem (ids : List Nat) :
    ∀ lc ms ex, ids ≠ [] → (scan_window ch ft B ids lc ms ex).1 ∈ ids := by
  induction ids with
  | nil => intro lc ms ex h; exact absurd rfl h
  | cons id rest ih =>
    intro lc ms ex _
    rcases hrest : rest with _ | ⟨b, l⟩
    · rcases hch : ch id with _ | m
      · rw [scan_window_cons_none ch ft B id [] lc ms ex hch, scan_window_nil]
        exact List.mem_cons_self id []
      · rcases hm : message_matches_filter m ft with _ | _
        · rw [scan_window_cons_skip ch ft B id [] lc ms ex m hch hm, scan_window_nil]
          exact List.mem_cons_self id []
        · by_cases hB : B ≤ ms.length + 1
          · rw [scan_window_cons_full ch ft B id [] lc ms ex m hch hm hB]
            exact List.mem_cons_self id []
          · rw [scan_window_cons_go ch ft B id [] lc ms ex m hch hm hB, scan_window_nil]
            exact List.mem_cons_self id []
    · rw [← hrest]
      have hne : rest ≠ [] := by simp [hrest]
      rcases hch : ch id with _ | m
      · rw [scan_window_cons_none ch ft B id rest lc ms ex hch]
        exact List.mem_cons_of_mem id (ih id ms (ex ++ [id]) hne)
      · rcases hm : message_matches_filter m ft with _ | _
        · rw [scan_window_cons_skip ch ft B id rest lc ms ex m hch hm]
          exact List.mem_cons_of_mem id (ih id ms (ex ++ [id]) hne)
        · by_cases hB : B ≤ ms.length + 1
          · rw [scan_window_cons_full ch ft B id rest lc ms ex m hch hm hB]
            exact List.mem_cons_self id rest
          · rw [scan_window_cons_go ch ft B id rest lc ms ex m hch hm hB]
            exact List.mem_cons_of_mem id (ih id (ms ++ [id]) (ex ++ [id]) hne)

/-- The last-checked marker always equals the last examined id (with a default
for an empty examined list), provided it did on entry. -/
theorem scan_window_getLast (ids : List Nat) :
    ∀ lc ms ex c0, lc = ex.getLast?.getD c0 →
      (scan_window ch ft B ids lc ms ex).1 =
        (scan_window ch ft B ids lc ms ex).2.2.getLast?.getD c0 := by
  induction ids with
  | nil => intro lc ms ex c0 h; rw [scan_window_nil]; exact h
  | cons id rest ih =>
    intro lc ms ex c0 _
    have hstep : id = (ex ++ [id]).getLast?.getD c0 := by simp
    rcases hch : ch id with _ | m
    · rw [scan_window_cons_none ch ft B id rest lc ms ex hch]
      exact ih id ms (ex ++ [id]) c0 hstep
    · rcases hm : message_matches_filter m ft with _ | _
      · rw [scan_window_cons_skip ch ft B id rest lc ms ex m hch hm]
        exact ih id ms (ex ++ [id]) c0 hstep
      · by_cases hB : B ≤ ms.length + 1
        · rw [scan_window_cons_full ch ft B id rest lc ms ex m hch hm hB]
          simp
        · rw [scan_window_cons_go ch ft B id rest lc ms ex m hch hm hB]
          exact ih id (ms ++ [id]) (ex ++ [id]) c0 hstep

/-- On a strictly increasing window of ids all above the entry marker, with all
previously examined ids at or below the entry marker: all examined ids end up
at or below the final marker, which is at or above the entry marker. -/
theorem scan_window_bounds (ids : List Nat) :
    ∀ lc ms ex, List.Pairwise (· < ·) ids → (∀ i ∈ ids, lc < i) →
      (∀ j ∈ ex, j ≤ lc) →
      (∀ j ∈ (scan_window ch ft B ids lc ms ex).2.2,
          j ≤ (scan_window ch ft B ids lc ms ex).1) ∧
        lc ≤ (scan_window ch ft B ids lc ms ex).1 := by
  induction ids with
  | nil =>
    intro lc ms ex _ _ hex
    rw [scan_window_nil]
    exact ⟨hex, Nat.le_refl lc⟩
  | cons id rest ih =>
    intro lc ms ex hpw hup hex
    have hid : lc < id := hup id (List.mem_cons_self id rest)
    have hpw2 : List.Pairwise (· < ·) rest := (List.pairwise_cons.mp hpw).2
    have hup2 : ∀ i ∈ rest, id < i := (List.pairwise_cons.mp hpw).1
    have hex2 : ∀ j ∈ ex ++ [id], j ≤ id := by
      intro j hj
      rcases List.mem_append.mp hj with h | h
      · exact Nat.le_of_lt (Nat.lt_of_le_of_lt (hex j h) hid)
      · simp only [List.mem_singleton] at h; exact Nat.le_of_eq h
    rcases hch : ch id with _ | m
    · rw [scan_window_cons_none ch ft B id rest lc ms ex hch]
      rcases ih id ms (ex ++ [id]) hpw2 hup2 hex2 with ⟨h1, h2⟩
      exact ⟨h1, Nat.le_trans (Nat.le_of_lt hid) h2⟩
    · rcases hm : message_matches_filter m ft with _ | _
      · rw [scan_window_cons_skip ch ft B id rest lc ms ex m hch hm]
        rcases ih id ms (ex ++ [id]) hpw2 hup2 hex2 with ⟨h1, h2⟩
        exact ⟨h1, Nat.le_trans (Nat.le_of_lt hid) h2⟩
      · by_cases hB : B ≤ ms.length + 1
        · rw [scan_window_cons_full ch ft B id rest lc ms ex m hch hm hB]
          exact ⟨hex2, Nat.le_of_lt hid⟩
        · rw [scan_window_cons_go ch ft B id rest lc ms ex m hch hm hB]
          rcases ih id (ms ++ [id]) (ex ++ [id]) hpw2 hup2 hex2 with ⟨h1, h2⟩
          exact ⟨h1, Nat.le_trans (Nat.le_of_lt hid) h2⟩

end ScanWindowLemmas

section WindowLemmas

theorem window_ids_pairwise (job : Job) (c : Nat) :
    List.Pairwise (· < ·) (window_ids job c) := by
  unfold window_ids
  exact List.pairwise_lt_range' c _

theorem window_ids_lower (job : Job) (c i : Nat) (h : i ∈ window_ids job c) : c ≤ i := by
  unfold window_ids at h
  exact (List.mem_range'_1.mp h).1

theorem window_ids_le_end (job : Job) (c i : Nat) (hfin : job.end_post_id ≠ 999999)
    (h : i ∈ window_ids job c) : i ≤ job.end_post_id := by
  simp only [window_ids] at h
  rw [if_pos hfin] at h
  have h1 := (List.mem_range'_1.mp h).1
  have h2 := (List.mem_range'_1.mp h).2
  have h3 : min (c + fetch_limit job) (job.end_post_id + 1) ≤ job.end_post_id + 1 :=
    Nat.min_le_right _ _
  omega

theorem window_ids_length (job : Job) (c : Nat) :
    (window_ids job c).length ≤ min (job.batch_size * 5) 100 := by
  unfold window_ids
  rw [List.length_range' c 1 _]
  unfold fetch_limit
  split <;> omega

theorem window_ids_shape (job : Job) (c : Nat) :
    ∃ n, window_ids job c = List.range' c n :=
  ⟨_, rfl⟩

theorem window_ids_isEmpty_cases (job : Job) (c : Nat)
    (h : (window_ids job c).isEmpty = true) :
    fetch_limit job = 0 ∨ (job.end_post_id ≠ 999999 ∧ job.end_post_id < c) := by
  simp only [window_ids] at h
  rw [List.isEmpty_iff, List.range'_eq_nil] at h
  by_cases hfin : job.end_post_id ≠ 999999
  · rw [if_pos hfin] at h
    rcases Nat.le_total (c + fetch_limit job) (job.end_post_id + 1) with hc | hc
    · rw [Nat.min_eq_left hc] at h; omega
    · rw [Nat.min_eq_right hc] at h; right; exact ⟨hfin, by omega⟩
  · rw [if_neg hfin] at h
    omega

end WindowLemmas

section ScanLoopLemmas

variable (ch : Channel) (job : Job)

theorem scan_loop_zero (c lc : Nat) (ms ex : List Nat) :
    scan_loop ch job 0 c lc ms ex = ⟨ms, lc, c, ex, true⟩ := rfl

theorem scan_loop_full (fuel c lc : Nat) (ms ex : List Nat)
    (h : job.batch_size ≤ ms.length) :
    scan_loop ch job (fuel + 1) c lc ms ex = ⟨ms, lc, c, ex, false⟩ := by
  simp [scan_loop, h]

theorem scan_loop_passed (fuel c lc : Nat) (ms ex : List Nat)
    (h1 : ¬ job.batch_size ≤ ms.length)
    (h2 : job.end_post_id ≠ 999999 ∧ job.end_post_id < c) :
    scan_loop ch job (fuel + 1) c lc ms ex = ⟨ms, lc, c, ex, false⟩ := by
  simp [scan_loop, h1, h2]

theorem scan_loop_noids (fuel c lc : Nat) (ms ex : List Nat)
    (h1 : ¬ job.batch_size ≤ ms.length)
    (h2 : ¬ (job.end_post_id ≠ 999999 ∧ job.end_post_id < c))
    (h3 : (window_ids job c).isEmpty = true) :
    scan_loop ch job (fuel + 1) c lc ms ex = ⟨ms, lc, c, ex, false⟩ := by
  simp [scan_loop, h1, h2, h3]

theorem scan_loop_early (fuel c lc : Nat) (ms ex : List Nat)
    (h1 : ¬ job.batch_size ≤ ms.length)
    (h2 : ¬ (job.end_post_id ≠ 999999 ∧ job.end_post_id < c))
    (h3 : ¬ (window_ids job c).isEmpty = true)
    (h4 : (scan_window ch job.filter_type job.batch_size (window_ids job c) lc ms ex).2.1.length <
            job.batch_size ∧ job.end_post_id = 999999) :
    scan_loop ch job (fuel + 1) c lc ms ex =
      ⟨(scan_window ch job.filter_type job.batch_size (window_ids job c) lc ms ex).2.1,
       (scan_window ch job.filter_type job.batch_size (window_ids job c) lc ms ex).1,
       (scan_window ch job.filter_type job.batch_size (window_ids job c) lc ms ex).1 + 1,
       (scan_window ch job.filter_type job.batch_size (window_ids job c) lc ms ex).2.2,
       false⟩ := by
  simp [scan_loop, h1, h2, h3, h4]

theorem scan_loop_go (fuel c lc : Nat) (ms ex : List Nat)
    (h1 : ¬ job.batch_size ≤ ms.length)
    (h2 : ¬ (job.end_post_id ≠ 999999 ∧ job.end_post_id < c))
    (h3 : ¬ (window_ids job c).isEmpty = true)
    (h4 : ¬ ((scan_window ch job.filter_type job.batch_size (window_ids job c) lc ms ex).2.1.length <
            job.batch_size ∧ job.end_post_id = 999999)) :
    scan_loop ch job (fuel + 1) c lc ms ex =
      scan_loop ch job fuel
        ((scan_window ch job.filter_type job.batch_size (window_ids job c) lc ms ex).1 + 1)
        ((scan_window ch job.filter_type job.batch_size (window_ids job c) lc ms ex).1)
        ((scan_window ch job.filter_type job.batch_size (window_ids job c) lc ms ex).2.1)
        ((scan_window ch job.filter_type job.batch_size (window_ids job c) lc ms ex).2.2) := by
  simp [scan_loop, h1, h2, h3, h4]

/-- The batch size bound is preserved by the whole scanning loop. -/
theorem scan_loop_len (fuel : Nat) :
    ∀ c lc ms ex, ms.length ≤ job.batch_size →
      (scan_loop ch job fuel c lc ms ex).messages_to_forward.length ≤ job.batch_size := by
  induction fuel with
  | zero => intro c lc ms ex h; rw [scan_loop_zero]; exact h
  | succ fuel ih =>
    intro c lc ms ex h
    by_cases h1 : job.batch_size ≤ ms.length
    · rw [scan_loop_full ch job fuel c lc ms ex h1]; exact h
    · by_cases h2 : job.end_post_id ≠ 999999 ∧ job.end_post_id < c
      · rw [scan_loop_passed ch job fuel c lc ms ex h1 h2]; exact h
      · by_cases h3 : (window_ids job c).isEmpty = true
        · rw [scan_loop_noids ch job fuel c lc ms ex h1 h2 h3]; exact h
        · have hlt : ms.length < job.batch_size := Nat.lt_of_not_le h1
          have hw := scan_window_len ch job.filter_type job.batch_size
            (window_ids job c) lc ms ex hlt
          by_cases h4 : (scan_window ch job.filter_type job.batch_size
              (window_ids job c) lc ms ex).2.1.length < job.batch_size ∧
              job.end_post_id = 999999
          · rw [scan_loop_early ch job fuel c lc ms ex h1 h2 h3 h4]; exact hw
          · rw [scan_loop_go ch job fuel c lc ms ex h1 h2 h3 h4]
            exact ih _ _ _ _ hw

/-- Through the whole loop, the last-checked marker is the last examined id
(or the initial marker when nothing was ever examined). -/
theorem scan_loop_getLast (fuel : Nat) :
    ∀ c lc ms ex c0, lc = ex.getLast?.getD c0 →
      (scan_loop ch job fuel c lc ms ex).lastChecked =
        (scan_loop ch job fuel c lc ms ex).examined.getLast?.getD c0 := by
  induction fuel with
  | zero => intro c lc ms ex c0 h; rw [scan_loop_zero]; exact h
  | succ fuel ih =>
    intro c lc ms ex c0 h
    by_cases h1 : job.batch_size ≤ ms.length
    · rw [scan_loop_full ch job fuel c lc ms ex h1]; exact h
    · by_cases h2 : job.end_post_id ≠ 999999 ∧ job.end_post_id < c
      · rw [scan_loop_passed ch job fuel c lc ms ex h1 h2]; exact h
      · by_cases h3 : (window_ids job c).isEmpty = true
        · rw [scan_loop_noids ch job fuel c lc ms ex h1 h2 h3]; exact h
        · have hw := scan_window_getLast ch job.filter_type job.batch_size
            (window_ids job c) lc ms ex c0 h
          by_cases h4 : (scan_window ch job.filter_type job.batch_size
              (window_ids job c) lc ms ex).2.1.length < job.batch_size ∧
              job.end_post_id = 999999
          · rw [scan_loop_early ch job fuel c lc ms ex h1 h2 h3 h4]; exact hw
          · rw [scan_loop_go ch job fuel c lc ms ex h1 h2 h3 h4]
            exact ih _ _ _ _ _ hw

/-- Through the whole loop, every examined id is at most the final marker, and
the marker never decreases. -/
theorem scan_loop_bounds (fuel : Nat) :
    ∀ c lc ms ex, (∀ j ∈ ex, j ≤ lc) → lc < c →
      (∀ j ∈ (scan_loop ch job fuel c lc ms ex).examined,
          j ≤ (scan_loop ch job fuel c lc ms ex).lastChecked) ∧
        lc ≤ (scan_loop ch job fuel c lc ms ex).lastChecked := by
  induction fuel with
  | zero =>
    intro c lc ms ex hex _
    rw [scan_loop_zero]
    exact ⟨hex, Nat.le_refl lc⟩
  | succ fuel ih =>
    intro c lc ms ex hex hcur
    by_cases h1 : job.batch_size ≤ ms.length
    · rw [scan_loop_full ch job fuel c lc ms ex h1]; exact ⟨hex, Nat.le_refl lc⟩
    · by_cases h2 : job.end_post_id ≠ 999999 ∧ job.end_post_id < c
      · rw [scan_loop_passed ch job fuel c lc ms ex h1 h2]; exact ⟨hex, Nat.le_refl lc⟩
      · by_cases h3 : (window_ids job c).isEmpty = true
        · rw [scan_loop_noids ch job fuel c lc ms ex h1 h2 h3]; exact ⟨hex, Nat.le_refl lc⟩
        · have hup : ∀ i ∈ window_ids job c, lc < i := fun i hi =>
            Nat.lt_of_lt_of_le hcur (window_ids_lower job c i hi)
          have hw := scan_window_bounds ch job.filter_type job.batch_size
            (window_ids job c) lc ms ex (window_ids_pairwise job c) hup hex
          by_cases h4 : (scan_window ch job.filter_type job.batch_size
              (window_ids job c) lc ms ex).2.1.length < job.batch_size ∧
              job.end_post_id = 999999
          · rw [scan_loop_early ch job fuel c lc ms ex h1 h2 h3 h4]; exact hw
          · rw [scan_loop_go ch job fuel c lc ms ex h1 h2 h3 h4]
            have hrec := ih _ _
              ((scan_window ch job.filter_type job.batch_size
                (window_ids job c) lc ms ex).2.1)
              ((scan_window ch job.filter_type job.batch_size
                (window_ids job c) lc ms ex).2.2)
              hw.1 (Nat.lt_succ_self _)
            exact ⟨hrec.1, Nat.le_trans hw.2 hrec.2⟩

/-- With a finite end bound, no id beyond the bound is ever examined. -/
theorem scan_loop_examined_le_end (hfin : job.end_post_id ≠ 999999) (fuel : Nat) :
    ∀ c lc ms ex, (∀ j ∈ ex, j ≤ job.end_post_id) →
      ∀ j ∈ (scan_loop ch job fuel c lc ms ex).examined, j ≤ job.end_post_id := by
  induction fuel with
  | zero => intro c lc ms ex hex; rw [scan_loop_zero]; exact hex
  | succ fuel ih =>
    intro c lc ms ex hex
    by_cases h1 : job.batch_size ≤ ms.length
    · rw [scan_loop_full ch job fuel c lc ms ex h1]; exact hex
    · by_cases h2 : job.end_post_id ≠ 999999 ∧ job.end_post_id < c
      · rw [scan_loop_passed ch job fuel c lc ms ex h1 h2]; exact hex
      · by_cases h3 : (window_ids job c).isEmpty = true
        · rw [scan_loop_noids ch job fuel c lc ms ex h1 h2 h3]; exact hex
        · rcases scan_window_examined_prefix ch job.filter_type job.batch_size
            (window_ids job c) lc ms ex with ⟨k, hk⟩
          have hex2 : ∀ j ∈ (scan_window ch job.filter_type job.batch_size
              (window_ids job c) lc ms ex).2.2, j ≤ job.end_post_id := by
            intro j hj
            rw [hk] at hj
            rcases List.mem_append.mp hj with hj2 | hj2
            · exact hex j hj2
            · exact window_ids_le_end job c j hfin (List.mem_of_mem_take hj2)
          by_cases h4 : (scan_window ch job.filter_type job.batch_size
              (window_ids job c) lc ms ex).2.1.length < job.batch_size ∧
              job.end_post_id = 999999
          · rw [scan_loop_early ch job fuel c lc ms ex h1 h2 h3 h4]; exact hex2
          · rw [scan_loop_go ch job fuel c lc ms ex h1 h2 h3 h4]
            exact ih _ _ _ _ hex2

/-- Every id in the final batch is a non-empty message accepted by the job's
filter. -/
theorem scan_loop_found_pred (fuel : Nat) :
    ∀ c lc ms ex,
      (∀ j ∈ ms, ∃ m, ch j = some m ∧
        message_matches_filter m job.filter_type = true) →
      ∀ j ∈ (scan_loop ch job fuel c lc ms ex).messages_to_forward,
        ∃ m, ch j = some m ∧ message_matches_filter m job.filter_type = true := by
  induction fuel with
  | zero => intro c lc ms ex hms; rw [scan_loop_zero]; exact hms
  | succ fuel ih =>
    intro c lc ms ex hms
    by_cases h1 : job.batch_size ≤ ms.length
    · rw [scan_loop_full ch job fuel c lc ms ex h1]; exact hms
    · by_cases h2 : job.end_post_id ≠ 999999 ∧ job.end_post_id < c
      · rw [scan_loop_passed ch job fuel c lc ms ex h1 h2]; exact hms
      · by_cases h3 : (window_ids job c).isEmpty = true
        · rw [scan_loop_noids ch job fuel c lc ms ex h1 h2 h3]; exact hms
        · have hms2 : ∀ j ∈ (scan_window ch job.filter_type job.batch_size
              (window_ids job c) lc ms ex).2.1, ∃ m, ch j = some m ∧
              message_matches_filter m job.filter_type = true := by
            intro j hj
            rcases scan_window_found_sub ch job.filter_type job.batch_size
              (window_ids job c) lc ms ex j hj with hin | ⟨_, hgood⟩
            · exact hms j hin
            · exact hgood
          by_cases h4 : (scan_window ch job.filter_type job.batch_size
              (window_ids job c) lc ms ex).2.1.length < job.batch_size ∧
              job.end_post_id = 999999
          · rw [scan_loop_early ch job fuel c lc ms ex h1 h2 h3 h4]; exact hms2
          · rw [scan_loop_go ch job fuel c lc ms ex h1 h2 h3 h4]
            exact ih _ _ _ _ hms2

/-- With a finite end bound and a positive batch size, sufficient fuel makes
the loop end either with a full batch or with `current` past the bound. -/
theorem scan_loop_finite_exit (hfin : job.end_post_id ≠ 999999)
    (hB : 1 ≤ job.batch_size) (fuel : Nat) :
    ∀ c lc ms ex, ms.length ≤ job.batch_size →
      job.end_post_id + 2 ≤ fuel + c →
      (scan_loop ch job fuel c lc ms ex).messages_to_forward.length = job.batch_size ∨
        job.end_post_id < (scan_loop ch job fuel c lc ms ex).current := by
  induction fuel with
  | zero =>
    intro c lc ms ex _ hfuel
    rw [scan_loop_zero]
    right
    show job.end_post_id < c
    omega
  | succ fuel ih =>
    intro c lc ms ex hms hfuel
    by_cases h1 : job.batch_size ≤ ms.length
    · rw [scan_loop_full ch job fuel c lc ms ex h1]
      left
      show ms.length = job.batch_size
      omega
    · by_cases h2 : job.end_post_id ≠ 999999 ∧ job.end_post_id < c
      · rw [scan_loop_passed ch job fuel c lc ms ex h1 h2]
        right
        exact h2.2
      · by_cases h3 : (window_ids job c).isEmpty = true
        · rcases window_ids_isEmpty_cases job c h3 with hfl | hpast
          · exfalso
            unfold fetch_limit at hfl
            omega
          · rw [scan_loop_noids ch job fuel c lc ms ex h1 h2 h3]
            right
            exact hpast.2
        · have hne : window_ids job c ≠ [] := by
            intro hcontra
            exact h3 (List.isEmpty_iff.mpr hcontra)
          have hlast := scan_window_last_mem ch job.filter_type job.batch_size
            (window_ids job c) lc ms ex hne
          have hcge : c ≤ (scan_window ch job.filter_type job.batch_size
              (window_ids job c) lc ms ex).1 :=
            window_ids_lower job c _ hlast
          have hlt : ms.length < job.batch_size := Nat.lt_of_not_le h1
          have hw := scan_window_len ch job.filter_type job.batch_size
            (window_ids job c) lc ms ex hlt
          by_cases h4 : (scan_window ch job.filter_type job.batch_size
              (window_ids job c) lc ms ex).2.1.length < job.batch_size ∧
              job.end_post_id = 999999
          · exact absurd h4.2 hfin
          · rw [scan_loop_go ch job fuel c lc ms ex h1 h2 h3 h4]
            exact ih _ _ _ _ hw (by omega)

/-- With the 999999 sentinel as end bound, the loop never examines past its
first window: the examined ids are the prior ones followed by an initial
segment of that window. -/
theorem scan_loop_unbounded_prefix (hinf : job.end_post_id = 999999) (fuel : Nat) :
    ∀ c lc ms ex, ∃ k,
      (scan_loop ch job (fuel + 2) c lc ms ex).examined =
        ex ++ (window_ids job c).take k := by
  intro c lc ms ex
  by_cases h1 : job.batch_size ≤ ms.length
  · rw [scan_loop_full ch job (fuel + 1) c lc ms ex h1]
    exact ⟨0, by simp⟩
  · by_cases h2 : job.end_post_id ≠ 999999 ∧ job.end_post_id < c
    · exact absurd hinf h2.1
    · by_cases h3 : (window_ids job c).isEmpty = true
      · rw [scan_loop_noids ch job (fuel + 1) c lc ms ex h1 h2 h3]
        exact ⟨0, by simp⟩
      · rcases scan_window_examined_prefix ch job.filter_type job.batch_size
          (window_ids job c) lc ms ex with ⟨k, hk⟩
        by_cases h4 : (scan_window ch job.filter_type job.batch_size
            (window_ids job c) lc ms ex).2.1.length < job.batch_size ∧
            job.end_post_id = 999999
        · rw [scan_loop_early ch job (fuel + 1) c lc ms ex h1 h2 h3 h4]
          exact ⟨k, hk⟩
        · rw [scan_loop_go ch job (fuel + 1) c lc ms ex h1 h2 h3 h4]
          have hfull : job.batch_size ≤ (scan_window ch job.filter_type job.batch_size
              (window_ids job c) lc ms ex).2.1.length := by
            rcases Nat.lt_or_ge (scan_window ch job.filter_type job.batch_size
              (window_ids job c) lc ms ex).2.1.length job.batch_size with hl | hg
            · exact absurd ⟨hl, hinf⟩ h4
            · exact hg
          rw [scan_loop_full ch job fuel _ _ _ _ hfull]
          exact ⟨k, hk⟩

end ScanLoopLemmas

section RunScanLemmas

variable (ch : Channel) (job : Job)

/-- The batch never exceeds `batch_size` matches. -/
theorem run_scan_len :
    (run_scan ch job).messages_to_forward.length ≤ job.batch_size :=
  scan_loop_len ch job (scan_fuel job) _ _ [] [] (Nat.zero_le _)

/-- The final marker is the last id examined, the old cursor when nothing was
examined. -/
theorem run_scan_getLast :
    (run_scan ch job).lastChecked =
      (run_scan ch job).examined.getLast?.getD job.last_forwarded_id :=
  scan_loop_getLast ch job (scan_fuel job) _ _ [] [] job.last_forwarded_id rfl

/-- The final marker is at least every examined id and at least the old
cursor. -/
theorem run_scan_bounds :
    (∀ j ∈ (run_scan ch job).examined, j ≤ (run_scan ch job).lastChecked) ∧
      job.last_forwarded_id ≤ (run_scan ch job).lastChecked :=
  scan_loop_bounds ch job (scan_fuel job) _ _ [] []
    (by intro j hj; exact absurd hj (List.not_mem_nil j)) (by omega)

/-- With a finite end bound, no examined id exceeds the bound. -/
theorem run_scan_examined_le_end (hfin : job.end_post_id ≠ 999999) :
    ∀ j ∈ (run_scan ch job).examined, j ≤ job.end_post_id :=
  scan_loop_examined_le_end ch job hfin (scan_fuel job) _ _ [] []
    (by intro j hj; exact absurd hj (List.not_mem_nil j))

/-- Every id in the final batch is a non-empty message accepted by the job's
filter. -/
theorem run_scan_found :
    ∀ j ∈ (run_scan ch job).messages_to_forward,
      ∃ m, ch j = some m ∧ message_matches_filter m job.filter_type = true :=
  scan_loop_found_pred ch job (scan_fuel job) _ _ [] []
    (by intro j hj; exact absurd hj (List.not_mem_nil j))

/-- With a finite end bound and a positive batch size, the scan ends either
with a full batch or with the bound exhausted. -/
theorem run_scan_finite_exit (hfin : job.end_post_id ≠ 999999)
    (hB : 1 ≤ job.batch_size) :
    (run_scan ch job).messages_to_forward.length = job.batch_size ∨
      job.end_post_id < (run_scan ch job).current :=
  scan_loop_finite_exit ch job hfin hB (scan_fuel job) _ _ [] [] (Nat.zero_le _)
    (by unfold scan_fuel; omega)

/-- With the 999999 sentinel, the scan only ever examines an initial segment of
its first window. -/
theorem run_scan_unbounded_prefix (hinf : job.end_post_id = 999999) :
    ∃ k, (run_scan ch job).examined =
      (window_ids job (max (job.last_forwarded_id + 1) job.start_post_id)).take k := by
  have hfuel : scan_fuel job = 999999 + 2 := by rw [scan_fuel, hinf]
  have h := scan_loop_unbounded_prefix ch job hinf 999999
    (max (job.last_forwarded_id + 1) job.start_post_id) job.last_forwarded_id [] []
  rw [run_scan, hfuel]
  simpa using h

/-- When a finite end bound is already at or below the cursor, the scan does
nothing: no matches, no examined ids, marker unchanged. -/
theorem run_scan_done (hfin : job.end_post_id ≠ 999999)
    (hle : job.end_post_id ≤ job.last_forwarded_id) :
    run_scan ch job = ⟨[], job.last_forwarded_id,
      max (job.last_forwarded_id + 1) job.start_post_id, [], false⟩ := by
  have hsh : scan_fuel job = job.end_post_id + 1 + 1 := rfl
  rw [run_scan, hsh]
  by_cases hB : job.batch_size ≤ ([] : List Nat).length
  · exact scan_loop_full ch job (job.end_post_id + 1) _ _ [] [] hB
  · exact scan_loop_passed ch job (job.end_post_id + 1) _ _ [] [] hB ⟨hfin, by omega⟩

end RunScanLemmas

section ForwardLemmas

/-- The forwarding loop never sleeps and never abandons the rest of the batch:
its `except FloodWait` handler is unreachable, whatever the send outcomes. -/
theorem forward_batch_no_sleep (send : Nat → SendOutcome) :
    ∀ ms, (forward_batch send ms).sleeps = [] ∧ (forward_batch send ms).skipped = [] := by
  intro ms
  induction ms with
  | nil => exact ⟨rfl, rfl⟩
  | cons x xs ih =>
    rcases hsx : send_custom_message send x with _ | d
    · simpa [forward_batch, hsx] using ih
    · simpa [forward_batch, hsx] using ih

/-- The forwarding loop walks the whole batch: its records concatenate over a
split of the batch. -/
theorem forward_batch_append (send : Nat → SendOutcome) :
    ∀ xs ys, (forward_batch send (xs ++ ys)).records =
      (forward_batch send xs).records ++ (forward_batch send ys).records := by
  intro xs
  induction xs with
  | nil => intro ys; simp [forward_batch]
  | cons x l ih =>
    intro ys
    rcases hsx : send_custom_message send x with _ | d
    · simp [forward_batch, hsx, ih]
    · simp [forward_batch, hsx, ih]

/-- A rate-limited copy is swallowed by `send_custom_message` into `None`,
so the loop treats that match exactly like a generic failure: it is dropped
and forwarding continues with the rest. -/
theorem forward_batch_swallowed (send : Nat → SendOutcome) (m t : Nat)
    (hm : send m = SendOutcome.floodWait t) :
    send_custom_message send m = none
    ∧ ∀ rest, forward_batch send (m :: rest) = forward_batch send rest := by
  have hsw : send_custom_message send m = none := by
    unfold send_custom_message
    rw [hm]
  exact ⟨hsw, fun rest => by simp [forward_batch, hsw]⟩

end ForwardLemmas

section KeyedListLemmas

variable {β : Type}

/-- Keyed lookup after a keyed update: the found entry is updated. -/
theorem find_keyed_update (l : List (Nat × β)) (jid : Nat) (f : β → β) :
    (l.map (fun p => if p.1 = jid then (p.1, f p.2) else p)).find?
        (fun p => p.1 = jid) =
      (l.find? (fun p => p.1 = jid)).map (fun p => (p.1, f p.2)) := by
  induction l with
  | nil => rfl
  | cons p l ih =>
    by_cases hp : p.1 = jid
    · simp [List.find?_cons, hp]
    · simp only [List.map_cons, if_neg hp]
      rw [List.find?_cons_of_neg _ (by simp [hp]), List.find?_cons_of_neg _ (by simp [hp])]
      exact ih

/-- Keyed lookup at a different key ignores a keyed update. -/
theorem find_keyed_update_other (l : List (Nat × β)) (jid j2 : Nat) (f : β → β)
    (hne : j2 ≠ jid) :
    (l.map (fun p => if p.1 = jid then (p.1, f p.2) else p)).find?
        (fun p => p.1 = j2) =
      l.find? (fun p => p.1 = j2) := by
  induction l with
  | nil => rfl
  | cons p l ih =>
    by_cases hp : p.1 = jid
    · have hp2 : ¬ p.1 = j2 := by rw [hp]; exact fun h => hne h.symm
      simp only [List.map_cons, if_pos hp]
      rw [List.find?_cons_of_neg _ (by simp [hp]; exact fun h => hne h.symm),
        List.find?_cons_of_neg _ (by simp [hp2])]
      exact ih
    · simp only [List.map_cons, if_neg hp]
      by_cases hp2 : p.1 = j2
      · rw [List.find?_cons_of_pos _ (by simp [hp2]), List.find?_cons_of_pos _ (by simp [hp2])]
      · rw [List.find?_cons_of_neg _ (by simp [hp2]), List.find?_cons_of_neg _ (by simp [hp2])]
        exact ih

/-- After dropping every entry with a key, lookup at that key finds nothing. -/
theorem find_filter_ne_self (l : List (Nat × β)) (jid : Nat) :
    (l.filter (fun p => p.1 ≠ jid)).find? (fun p => p.1 = jid) = none := by
  induction l with
  | nil => rfl
  | cons p l ih =>
    by_cases hp : p.1 = jid
    · rw [List.filter_cons_of_neg (by simp [hp])]
      exact ih
    · rw [List.filter_cons_of_pos (by simp [hp]), List.find?_cons_of_neg _ (by simp [hp])]
      exact ih

/-- Dropping every entry with one key does not affect lookup at another. -/
theorem find_filter_ne_other (l : List (Nat × β)) (jid j2 : Nat) (hne : j2 ≠ jid) :
    (l.filter (fun p => p.1 ≠ jid)).find? (fun p => p.1 = j2) =
      l.find? (fun p => p.1 = j2) := by
  induction l with
  | nil => rfl
  | cons p l ih =>
    by_cases hp : p.1 = jid
    · have hp2 : ¬ p.1 = j2 := by rw [hp]; exact fun h => hne h.symm
      rw [List.filter_cons_of_neg (by simp [hp]), List.find?_cons_of_neg _ (by simp [hp2])]
      exact ih
    · rw [List.filter_cons_of_pos (by simp [hp])]
      by_cases hp2 : p.1 = j2
      · rw [List.find?_cons_of_pos _ (by simp [hp2]), List.find?_cons_of_pos _ (by simp [hp2])]
      · rw [List.find?_cons_of_neg _ (by simp [hp2]), List.find?_cons_of_neg _ (by simp [hp2])]
        exact ih

/-- A keyed update followed by dropping that key is just the drop. -/
theorem filter_ne_keyed_update (l : List (Nat × β)) (jid : Nat) (f : β → β) :
    (l.map (fun p => if p.1 = jid then (p.1, f p.2) else p)).filter
        (fun p => p.1 ≠ jid) =
      l.filter (fun p => p.1 ≠ jid) := by
  induction l with
  | nil => rfl
  | cons p l ih =>
    by_cases hp : p.1 = jid
    · simp only [List.map_cons, if_pos hp]
      rw [List.filter_cons_of_neg (by simp [hp]), List.filter_cons_of_neg (by simp [hp])]
      exact ih
    · simp only [List.map_cons, if_neg hp]
      rw [List.filter_cons_of_pos (by simp [hp]), List.filter_cons_of_pos (by simp [hp])]
      rw [ih]

/-- Two keyed updates at the same key compose pointwise. -/
theorem keyed_update_update (l : List (Nat × β)) (jid : Nat) (f g : β → β) :
    (l.map (fun p => if p.1 = jid then (p.1, f p.2) else p)).map
        (fun p => if p.1 = jid then (p.1, g p.2) else p) =
      l.map (fun p => if p.1 = jid then (p.1, g (f p.2)) else p) := by
  rw [List.map_map]
  apply List.map_congr_left
  intro p _
  by_cases hp : p.1 = jid
  · simp [Function.comp, hp]
  · simp [Function.comp, hp]

end KeyedListLemmas

section DatabaseLemmas

theorem get_job_update_status (s : Store) (jid : Nat) (act : Bool) (now : Nat) :
    Database.get_job (Database.update_job_status s jid act now) jid =
      (Database.get_job s jid).map
        (fun j => { j with is_active := act, updated_at := now }) := by
  unfold Database.get_job Database.update_job_status
  rw [find_keyed_update s.jobs jid (fun j => { j with is_active := act, updated_at := now })]
  cases s.jobs.find? (fun p => p.1 = jid) <;> simp

theorem get_job_update_status_other (s : Store) (jid j2 : Nat) (act : Bool) (now : Nat)
    (hne : j2 ≠ jid) :
    Database.get_job (Database.update_job_status s jid act now) j2 =
      Database.get_job s j2 := by
  unfold Database.get_job Database.update_job_status
  rw [find_keyed_update_other s.jobs jid j2
    (fun j => { j with is_active := act, updated_at := now }) hne]

theorem get_job_update_last (s : Store) (jid mid now : Nat) :
    Database.get_job (Database.update_last_forwarded s jid mid now) jid =
      (Database.get_job s jid).map
        (fun j => { j with last_forwarded_id := mid, updated_at := now }) := by
  unfold Database.get_job Database.update_last_forwarded
  rw [find_keyed_update s.jobs jid
    (fun j => { j with last_forwarded_id := mid, updated_at := now })]
  cases s.jobs.find? (fun p => p.1 = jid) <;> simp

theorem get_job_reset (s : Store) (jid st now : Nat) :
    Database.get_job (Database.reset_job_progress s jid st now) jid =
      (Database.get_job s jid).map
        (fun j => { j with last_forwarded_id := st - 1, updated_at := now }) := by
  unfold Database.get_job Database.reset_job_progress
  rw [find_keyed_update s.jobs jid
    (fun j => { j with last_forwarded_id := st - 1, updated_at := now })]
  cases s.jobs.find? (fun p => p.1 = jid) <;> simp

theorem get_job_reset_other (s : Store) (jid j2 st now : Nat) (hne : j2 ≠ jid) :
    Database.get_job (Database.reset_job_progress s jid st now) j2 =
      Database.get_job s j2 := by
  unfold Database.get_job Database.reset_job_progress
  rw [find_keyed_update_other s.jobs jid j2
    (fun j => { j with last_forwarded_id := st - 1, updated_at := now }) hne]

theorem get_job_delete (s : Store) (jid : Nat) :
    Database.get_job (Database.delete_job s jid) jid = none := by
  unfold Database.get_job Database.delete_job
  rw [find_filter_ne_self s.jobs jid]
  rfl

theorem get_job_delete_other (s : Store) (jid j2 : Nat) (hne : j2 ≠ jid) :
    Database.get_job (Database.delete_job s jid) j2 = Database.get_job s j2 := by
  unfold Database.get_job Database.delete_job
  rw [find_filter_ne_other s.jobs jid j2 hne]

theorem reset_records (s : Store) (jid st now : Nat) :
    (Database.reset_job_progress s jid st now).forwarded_messages =
      s.forwarded_messages.filter (fun r => r.job_id ≠ jid) := rfl

theorem update_status_records (s : Store) (jid : Nat) (act : Bool) (now : Nat) :
    (Database.update_job_status s jid act now).forwarded_messages =
      s.forwarded_messages := rfl

theorem delete_job_records (s : Store) (jid : Nat) :
    (Database.delete_job s jid).forwarded_messages =
      s.forwarded_messages.filter (fun r => r.job_id ≠ jid) := rfl

theorem get_old_none (s : Store) (jid d now : Nat)
    (h : ∀ r ∈ s.forwarded_messages, r.job_id ≠ jid) :
    Database.get_old_forwarded_messages s jid d now = ([], s) := by
  simp only [Database.get_old_forwarded_messages]
  by_cases hd : d = 0
  · rw [if_pos hd]
  · rw [if_neg hd]
    have h1 : s.forwarded_messages.filter
        (fun r => decide (r.job_id = jid ∧ r.forwarded_at < now - d)) = [] := by
      rw [List.filter_eq_nil_iff]
      intro r hr
      simp [h r hr]
    have h2 : s.forwarded_messages.filter
        (fun r => decide ¬(r.job_id = jid ∧ r.forwarded_at < now - d)) =
          s.forwarded_messages := by
      rw [List.filter_eq_self]
      intro r hr
      simp [h r hr]
    rw [h1, h2]
    rfl

theorem apply_records_jobs (jid now : Nat) :
    ∀ (recs : List (Nat × Nat)) (s : Store),
      (recs.foldl (fun acc p => Database.add_forwarded_message acc jid p.1 p.2 now) s).jobs =
        s.jobs := by
  intro recs
  induction recs with
  | nil => intro s; rfl
  | cons r rest ih =>
    intro s
    rw [List.foldl_cons, ih]
    rfl

theorem get_job_apply_batch (s : Store) (jid : Nat) (e : BatchEffects) (now : Nat) :
    Database.get_job (apply_batch s jid e now) jid =
      (Database.get_job s jid).map
        (fun j => { j with last_forwarded_id := e.scan.lastChecked, updated_at := now }) := by
  unfold apply_batch
  rw [get_job_update_last]
  unfold Database.get_job
  rw [apply_records_jobs jid now e.fwd.records s]

theorem update_status_update_status (s : Store) (jid : Nat) (a1 a2 : Bool) (t1 t2 : Nat) :
    Database.update_job_status (Database.update_job_status s jid a1 t1) jid a2 t2 =
      Database.update_job_status s jid a2 t2 := by
  unfold Database.update_job_status
  rw [keyed_update_update s.jobs jid
    (fun j => { j with is_active := a1, updated_at := t1 })
    (fun j => { j with is_active := a2, updated_at := t2 })]

end DatabaseLemmas

section Fixtures

/-- Channel fixture: odd ids carry text posts, multiples of 4 carry media,
everything else is empty. -/
def chW : Channel := fun n =>
  if n % 2 = 1 then some ⟨false, true⟩
  else if n % 4 = 0 then some ⟨true, false⟩
  else none

/-- A channel with no messages at all. -/
def chEmpty : Channel := fun _ => none

/-- Job fixture with a finite range: start 1, end 10, batch 20, cursor 0. -/
def jobF : Job := ⟨1, 10, 20, 1, 10, 20, 5, 0, "all", "", "", "", true, 0, 0, 0⟩

/-- `jobF` with its cursor already at the end bound. -/
def jobFdone : Job := ⟨1, 10, 20, 1, 10, 20, 5, 0, "all", "", "", "", true, 10, 0, 0⟩

/-- Send fixture: every send succeeds. -/
def sendOk : Nat → SendOutcome := fun n => SendOutcome.sent (n + 1000)

example : run_scan chW jobU =
    ⟨[101, 103, 104, 105, 107], 107, 108, [101, 102, 103, 104, 105, 106, 107], false⟩ := by
  decide

example : run_scan chW jobF =
    ⟨[1, 3, 4, 5, 7, 8, 9], 10, 11, [1, 2, 3, 4, 5, 6, 7, 8, 9, 10], false⟩ := by
  decide

end Fixtures

/-- C1: in every cycle the runner commits the cursor to the highest source id
it physically examined (gaps and non-matches included; the old cursor when it
examined nothing), the commit is independent of the forwarding outcomes — it
lands in the store whether or not every batched message was forwarded — and
consequently the committed cursor never decreases across cycles. -/
theorem c1_cursor_commit (ch : Channel) (job : Job)
    (send1 send2 : Nat → SendOutcome) (s : Store) (jid now : Nat) :
    (process_job_batch ch send1 job).scan.lastChecked =
      (process_job_batch ch send2 job).scan.lastChecked
    ∧ (run_scan ch job).lastChecked =
        (run_scan ch job).examined.getLast?.getD job.last_forwarded_id
    ∧ (∀ j ∈ (run_scan ch job).examined, j ≤ (run_scan ch job).lastChecked)
    ∧ job.last_forwarded_id ≤ (run_scan ch job).lastChecked
    ∧ Database.get_job (apply_batch s jid (process_job_batch ch send1 job) now) jid =
        (Database.get_job s jid).map (fun j => { j with last_forwarded_id := (run_scan ch job).lastChecked, updated_at := now }) :=
  ⟨rfl, run_scan_getLast ch job, (run_scan_bounds ch job).1, (run_scan_bounds ch job).2,
   get_job_apply_batch s jid (process_job_batch ch send1 job) now⟩

theorem c1_witness :
    107 ∈ (run_scan chW jobU).examined
    ∧ 107 ≤ (run_scan chW jobU).lastChecked
    ∧ jobU.last_forwarded_id ≤ (run_scan chW jobU).lastChecked :=
  ⟨by decide,
   (c1_cursor_commit chW jobU sendOk sendOk ⟨[], []⟩ 1 0).2.2.1 107 (by decide),
   (c1_cursor_commit chW jobU sendOk sendOk ⟨[], []⟩ 1 0).2.2.2.1⟩

/-- C2: a cycle accumulates at most `batch_size` matches; with a finite end
bound no examined id exceeds the bound; every fetched window is a contiguous
id range of at most `min(5 * batch_size, 100)` ids, clipped to a finite end
bound. -/
theorem c2_scan_bounds (ch : Channel) (job : Job) :
    (run_scan ch job).messages_to_forward.length ≤ job.batch_size
    ∧ (job.end_post_id ≠ 999999 →
        ∀ i ∈ (run_scan ch job).examined, i ≤ job.end_post_id)
    ∧ (∀ c, (∃ n, window_ids job c = List.range' c n)
        ∧ (window_ids job c).length ≤ min (job.batch_size * 5) 100
        ∧ (job.end_post_id ≠ 999999 → ∀ i ∈ window_ids job c, i ≤ job.end_post_id)) :=
  ⟨run_scan_len ch job,
   fun hfin => run_scan_examined_le_end ch job hfin,
   fun c => ⟨window_ids_shape job c, window_ids_length job c,
     fun hfin i hi => window_ids_le_end job c i hfin hi⟩⟩

theorem c2_witness :
    jobF.end_post_id ≠ 999999
    ∧ 5 ∈ (run_scan chW jobF).examined
    ∧ 5 ≤ jobF.end_post_id :=
  ⟨by decide, by decide, (c2_scan_bounds chW jobF).2.1 (by decide) 5 (by decide)⟩

/-- C4: the filter predicate: "media" accepts exactly the messages with a
media payload, "text" exactly those with text and no media, "all" accepts
every presented message; and every id the scanner counts as a match is a
non-empty message accepted by the job's filter (empty ids are never matches
under any filter kind). -/
theorem c4_filter (m : Msg) (ch : Channel) (job : Job) :
    message_matches_filter m "media" = m.media
    ∧ message_matches_filter m "text" = (m.text && !m.media)
    ∧ message_matches_filter m "all" = true
    ∧ (∀ i ∈ (run_scan ch job).messages_to_forward,
        ∃ mm, ch i = some mm ∧ message_matches_filter mm job.filter_type = true) :=
  ⟨rfl, rfl, rfl, run_scan_found ch job⟩

theorem c4_witness :
    101 ∈ (run_scan chW jobU).messages_to_forward
    ∧ ∃ mm, chW 101 = some mm ∧ message_matches_filter mm jobU.filter_type = true :=
  ⟨by decide, (c4_filter ⟨false, true⟩ chW jobU).2.2.2 101 (by decide)⟩

/-- C7: a cycle that loads a job whose finite end bound is at or below its
cursor sleeps twice the recurring interval and produces no matches, no forward
records and no cursor movement (no error: the cycle still runs); any other
cycle sleeps exactly the recurring interval. -/
theorem c7_sleep_policy (ch : Channel) (send : Nat → SendOutcome) (job : Job) :
    (job.end_post_id ≠ 999999 → job.end_post_id ≤ job.last_forwarded_id →
      cycle_sleep_seconds job = job.recurring_time * 60 * 2
      ∧ (process_job_batch ch send job).scan.messages_to_forward = []
      ∧ (process_job_batch ch send job).fwd.records = []
      ∧ (process_job_batch ch send job).scan.lastChecked = job.last_forwarded_id)
    ∧ (¬ (job.end_post_id ≠ 999999 ∧ job.end_post_id ≤ job.last_forwarded_id) →
        cycle_sleep_seconds job = job.recurring_time * 60) := by
  constructor
  · intro hfin hle
    have hs := run_scan_done ch job hfin hle
    refine ⟨?_, ?_, ?_, ?_⟩
    · unfold cycle_sleep_seconds
      rw [if_pos ⟨hfin, hle⟩]
    · show (run_scan ch job).messages_to_forward = []
      rw [hs]
    · show (forward_batch send (run_scan ch job).messages_to_forward).records = []
      rw [hs]
      rfl
    · show (run_scan ch job).lastChecked = job.last_forwarded_id
      rw [hs]
  · intro hn
    unfold cycle_sleep_seconds
    rw [if_neg hn]

theorem c7_witness :
    jobFdone.end_post_id ≠ 999999
    ∧ jobFdone.end_post_id ≤ jobFdone.last_forwarded_id
    ∧ cycle_sleep_seconds jobFdone = jobFdone.recurring_time * 60 * 2
    ∧ (process_job_batch chW sendOk jobFdone).fwd.records = []
    ∧ cycle_sleep_seconds jobU = jobU.recurring_time * 60 :=
  ⟨by decide, by decide,
   ((c7_sleep_policy chW sendOk jobFdone).1 (by decide) (by decide)).1,
   ((c7_sleep_policy chW sendOk jobFdone).1 (by decide) (by decide)).2.2.1,
   (c7_sleep_policy chW sendOk jobU).2 (by decide)⟩

/-- C8: with the unbounded sentinel the scan never goes past its first fetched
window — the examined ids are an initial segment of that window, so a
shortfall ends the cycle instead of widening the scan; with a finite end bound
and a positive batch size the scan instead ends only with a full batch or with
the bound exhausted. -/
theorem c8_early_exit (ch : Channel) (job : Job) :
    (job.end_post_id = 999999 →
      ∃ k, (run_scan ch job).examined =
        (window_ids job (max (job.last_forwarded_id + 1) job.start_post_id)).take k)
    ∧ (job.end_post_id ≠ 999999 → 1 ≤ job.batch_size →
        (run_scan ch job).messages_to_forward.length = job.batch_size ∨
          job.end_post_id < (run_scan ch job).current) :=
  ⟨fun hinf => run_scan_unbounded_prefix ch job hinf,
   fun hfin hB => run_scan_finite_exit ch job hfin hB⟩

theorem c8_witness :
    jobF.end_post_id ≠ 999999
    ∧ 1 ≤ jobF.batch_size
    ∧ ((run_scan chW jobF).messages_to_forward.length = jobF.batch_size ∨
        jobF.end_post_id < (run_scan chW jobF).current)
    ∧ (run_scan chW jobU).examined = (window_ids jobU 101).take 7 :=
  ⟨by decide, by decide, (c8_early_exit chW jobF).2 (by decide) (by decide), by decide⟩

/-- Channel for the rate-limit scenario: two text posts at ids 1 and 2. -/
def chC3 : Channel := fun n => if n = 1 ∨ n = 2 then some ⟨false, true⟩ else none

/-- Unbounded job with batch size 2 and cursor 0. -/
def jobC3 : Job := ⟨1, 10, 20, 1, 999999, 2, 5, 0, "all", "", "", "", true, 0, 0, 0⟩

/-- Send oracle: id 1 raises a rate limit of 30 s, everything else succeeds. -/
def sendC3 : Nat → SendOutcome := fun n =>
  if n = 1 then SendOutcome.floodWait 30 else SendOutcome.sent (n + 500)

/-- C3 as stated is false: with a 30 s rate limit on the first send, the
runner does not sleep at all — `send_custom_message` swallows the `FloodWait`
into `None` — the rate-limited message 1 is dropped without retry, forwarding
continues with message 2 in the same pass, and the cursor is still committed
forward past the dropped message. -/
theorem c3_counterexample :
    sendC3 1 = SendOutcome.floodWait 30
    ∧ (process_job_batch chC3 sendC3 jobC3).scan.messages_to_forward = [1, 2]
    ∧ (process_job_batch chC3 sendC3 jobC3).fwd.sleeps = []
    ∧ (process_job_batch chC3 sendC3 jobC3).fwd.records = [(2, 502)]
    ∧ (process_job_batch chC3 sendC3 jobC3).fwd.skipped = []
    ∧ jobC3.last_forwarded_id < (process_job_batch chC3 sendC3 jobC3).scan.lastChecked := by
  decide

/-- C3 amended: a rate-limit raised while forwarding is caught by
`send_custom_message`'s blanket exception handler and turned into `None`, so
the loop's own `FloodWait` handler never fires for sends: the runner performs
no wait-long sleep, the rate-limited match is dropped without a forward record
and without retry, forwarding continues immediately with every other match,
and the cursor commit is the scanned position, unaffected by the forwarding
outcomes. -/
theorem c3_amended_floodwait (ch : Channel) (job : Job) (send : Nat → SendOutcome)
    (t m : Nat) (pre post : List Nat)
    (hsplit : (run_scan ch job).messages_to_forward = pre ++ m :: post)
    (hm : send m = SendOutcome.floodWait t) :
    send_custom_message send m = none
    ∧ (process_job_batch ch send job).fwd.records =
        (forward_batch send pre).records ++ (forward_batch send post).records
    ∧ (process_job_batch ch send job).fwd.sleeps = []
    ∧ (process_job_batch ch send job).fwd.skipped = []
    ∧ (process_job_batch ch send job).scan = run_scan ch job
    ∧ (∀ send2, (process_job_batch ch send2 job).scan.lastChecked =
        (process_job_batch ch send job).scan.lastChecked) := by
  refine ⟨(forward_batch_swallowed send m t hm).1, ?_,
    (forward_batch_no_sleep send ((run_scan ch job).messages_to_forward)).1,
    (forward_batch_no_sleep send ((run_scan ch job).messages_to_forward)).2,
    rfl, fun send2 => rfl⟩
  show (forward_batch send ((run_scan ch job).messages_to_forward)).records =
    (forward_batch send pre).records ++ (forward_batch send post).records
  rw [hsplit, forward_batch_append send pre (m :: post),
    (forward_batch_swallowed send m t hm).2 post]

theorem c3_amended_witness :
    (run_scan chC3 jobC3).messages_to_forward = [] ++ 1 :: [2]
    ∧ sendC3 1 = SendOutcome.floodWait 30
    ∧ send_custom_message sendC3 1 = none
    ∧ (process_job_batch chC3 sendC3 jobC3).fwd.records =
        (forward_batch sendC3 []).records ++ (forward_batch sendC3 [2]).records
    ∧ (process_job_batch chC3 sendC3 jobC3).fwd.sleeps = [] :=
  ⟨by decide, by decide,
   (c3_amended_floodwait chC3 jobC3 sendC3 30 1 [] [2] (by decide) (by decide)).1,
   (c3_amended_floodwait chC3 jobC3 sendC3 30 1 [] [2] (by decide) (by decide)).2.1,
   (c3_amended_floodwait chC3 jobC3 sendC3 30 1 [] [2] (by decide) (by decide)).2.2.1⟩

/-- An active job fixture (id 7 in `storeC5`). -/
def jobActive : Job := ⟨1, 10, 20, 5, 50, 3, 15, 60, "all", "", "", "", true, 9, 0, 0⟩

/-- A store holding the active job 7 with one forward record, plus a stray
record of another job. -/
def storeC5 : Store := ⟨[(7, jobActive)], [⟨7, 6, 301, 0⟩, ⟨8, 6, 302, 0⟩]⟩

/-- C5 as stated is false for delete: invoking delete on the active job 7 is
not rejected with a conflict — it succeeds, removing the job and its records
(after persisting the stop). -/
theorem c5_counterexample :
    (Database.get_job storeC5 7).map (fun j => j.is_active) = some true
    ∧ delete_job_confirmed storeC5 7 1 ≠ ActionResult.conflict storeC5
    ∧ delete_job_confirmed storeC5 7 1 = ActionResult.ok ⟨[], [⟨8, 6, 302, 0⟩]⟩ := by
  decide

/-- C5 amended: reset does require the job inactive — on an active job it is
rejected with the conflict alert and the store is untouched; delete has no
such guard: on any existing job (active or not) it succeeds, first persisting
`is_active := false` when needed, then removing the job and exactly its
forward records. -/
theorem c5_amended_guards (s : Store) (jid now : Nat) (job : Job)
    (hj : Database.get_job s jid = some job) :
    (job.is_active = true → reset_job_progress_action s jid now = ActionResult.conflict s)
    ∧ (job.is_active = false →
        reset_job_progress_action s jid now =
          ActionResult.ok (Database.reset_job_progress s jid job.start_post_id now))
    ∧ delete_job_confirmed s jid now ≠ ActionResult.conflict s
    ∧ ∃ s2, delete_job_confirmed s jid now = ActionResult.ok s2
        ∧ Database.get_job s2 jid = none
        ∧ s2.forwarded_messages = s.forwarded_messages.filter (fun r => r.job_id ≠ jid)
        ∧ (∀ j2, j2 ≠ jid → Database.get_job s2 j2 = Database.get_job s j2) := by
  have hdel : delete_job_confirmed s jid now =
      ActionResult.ok (Database.delete_job
        (if job.is_active then Database.update_job_status s jid false now else s) jid) := by
    unfold delete_job_confirmed
    rw [hj]
  refine ⟨?_, ?_, ?_, ?_⟩
  · intro ha
    unfold reset_job_progress_action
    rw [hj]
    show (if job.is_active = true then ActionResult.conflict s
      else ActionResult.ok (Database.reset_job_progress s jid job.start_post_id now)) =
      ActionResult.conflict s
    rw [if_pos ha]
  · intro ha
    unfold reset_job_progress_action
    rw [hj]
    show (if job.is_active = true then ActionResult.conflict s
      else ActionResult.ok (Database.reset_job_progress s jid job.start_post_id now)) =
      ActionResult.ok (Database.reset_job_progress s jid job.start_post_id now)
    rw [if_neg (by simp [ha])]
  · rw [hdel]
    intro hcon
    cases hcon
  · refine ⟨_, hdel, get_job_delete _ jid, ?_, ?_⟩
    · by_cases hb : job.is_active = true
      · rw [if_pos hb]
        rfl
      · rw [if_neg hb]
        rfl
    · intro j2 hne
      rw [get_job_delete_other _ jid j2 hne]
      by_cases hb : job.is_active = true
      · rw [if_pos hb]
        exact get_job_update_status_other s jid j2 false now hne
      · rw [if_neg hb]

theorem c5_witness :
    Database.get_job storeC5 7 = some jobActive
    ∧ jobActive.is_active = true
    ∧ reset_job_progress_action storeC5 7 1 = ActionResult.conflict storeC5 :=
  ⟨by decide, by decide, (c5_amended_guards storeC5 7 1 jobActive (by decide)).1 (by decide)⟩

/-- A job whose end bound is the real message id 999999 (as stored by
`handle_end_post` from a message link), cursor just below it. -/
def jobC6 : Job := ⟨1, 10, 20, 999995, 999999, 20, 5, 0, "all", "", "", "", true, 999994, 0, 0⟩

/-- C6 as stated is false: the sentinel is the plain number 999999.  The end
input handler stores a real link to message 999999 as exactly the sentinel
value (and even accepts it below the start id, where any other id is
rejected), and a job with that end bound is scanned as unbounded: the scanner
examines id 1000000, past the supposed finite bound. -/
theorem c6_counterexample :
    handle_end_post_store 999995 999999 = some 999999
    ∧ handle_end_post_store 1000000 999999 = some 999999
    ∧ handle_end_post_store 1000000 999998 = none
    ∧ jobC6.end_post_id = 999999
    ∧ 1000000 ∈ (run_scan chEmpty jobC6).examined := by
  decide

/-- C6 amended: "unbounded" is represented by the magic number 999999, not a
distinct tagged value.  Every end bound other than 999999 behaves as a true
finite bound (no examined id ever exceeds it), while the end-input handler
accepts 999999 unconditionally and any other id only at or above the start
id. -/
theorem c6_amended_sentinel (ch : Channel) (job : Job) (st mid : Nat) :
    (job.end_post_id ≠ 999999 →
      ∀ i ∈ (run_scan ch job).examined, i ≤ job.end_post_id)
    ∧ (handle_end_post_store st mid = some mid ↔ (mid = 999999 ∨ st ≤ mid)) := by
  refine ⟨run_scan_examined_le_end ch job, ?_⟩
  unfold handle_end_post_store
  by_cases h : mid < st ∧ mid ≠ 999999
  · rw [if_pos h]
    constructor
    · intro hc
      cases hc
    · intro hc
      rcases hc with hc | hc
      · exact absurd hc h.2
      · omega
  · rw [if_neg h]
    constructor
    · intro _
      by_cases h9 : mid = 999999
      · exact Or.inl h9
      · rcases Nat.lt_or_ge mid st with hlt | hge
        · exact absurd ⟨hlt, h9⟩ h
        · exact Or.inr hge
    · intro _
      rfl

theorem c6_amended_witness :
    jobF.end_post_id ≠ 999999
    ∧ 7 ∈ (run_scan chW jobF).examined
    ∧ 7 ≤ jobF.end_post_id
    ∧ (handle_end_post_store 1 3 = some 3 ↔ (3 = 999999 ∨ 1 ≤ 3)) :=
  ⟨by decide, by decide,
   (c6_amended_sentinel chW jobF 1 3).1 (by decide) 7 (by decide),
   (c6_amended_sentinel chW jobF 1 3).2⟩

/-- C9: reset sets the cursor to `start - 1` and deletes exactly the job's
own forward records, leaving the active flag, every other job, and other
jobs' records unchanged; afterwards a retention query for this job returns
nothing and purges nothing. -/
theorem c9_reset_progress (s : Store) (jid st now : Nat) :
    Database.get_job (Database.reset_job_progress s jid st now) jid =
      (Database.get_job s jid).map (fun j => { j with last_forwarded_id := st - 1, updated_at := now })
    ∧ (∀ job, Database.get_job s jid = some job →
        (Database.get_job (Database.reset_job_progress s jid st now) jid).map
            (fun j => j.last_forwarded_id) = some (st - 1)
        ∧ (Database.get_job (Database.reset_job_progress s jid st now) jid).map
            (fun j => j.is_active) = some job.is_active)
    ∧ (∀ r ∈ (Database.reset_job_progress s jid st now).forwarded_messages, r.job_id ≠ jid)
    ∧ (∀ r, r.job_id ≠ jid →
        (r ∈ (Database.reset_job_progress s jid st now).forwarded_messages ↔
          r ∈ s.forwarded_messages))
    ∧ (∀ j2, j2 ≠ jid →
        Database.get_job (Database.reset_job_progress s jid st now) j2 =
          Database.get_job s j2)
    ∧ (∀ d now2, Database.get_old_forwarded_messages
        (Database.reset_job_progress s jid st now) jid d now2 =
          ([], Database.reset_job_progress s jid st now)) := by
  have hrec : ∀ r ∈ (Database.reset_job_progress s jid st now).forwarded_messages,
      r.job_id ≠ jid := by
    intro r hr
    rw [reset_records] at hr
    have h2 := (List.mem_filter.mp hr).2
    simpa using h2
  refine ⟨get_job_reset s jid st now, ?_, hrec, ?_,
    fun j2 hne => get_job_reset_other s jid j2 st now hne,
    fun d now2 => get_old_none _ jid d now2 hrec⟩
  · intro job hjob
    rw [get_job_reset, hjob]
    exact ⟨rfl, rfl⟩
  · intro r hrne
    rw [reset_records]
    constructor
    · intro h
      exact (List.mem_filter.mp h).1
    · intro h
      exact List.mem_filter.mpr ⟨h, by simpa using hrne⟩

theorem c9_witness :
    (8 : Nat) ≠ 7
    ∧ Database.get_job (Database.reset_job_progress storeC5 7 5 2) 8 =
        Database.get_job storeC5 8
    ∧ Database.get_old_forwarded_messages (Database.reset_job_progress storeC5 7 5 2) 7 60 100 =
        ([], Database.reset_job_progress storeC5 7 5 2) :=
  ⟨by decide, (c9_reset_progress storeC5 7 5 2).2.2.2.2.1 8 (by decide),
   (c9_reset_progress storeC5 7 5 2).2.2.2.2.2 60 100⟩

/-- `stop_job` on an existing job, written out. -/
theorem stop_job_some (b : BotState) (jid now : Nat) (job : Job)
    (hj : Database.get_job b.store jid = some job) :
    stop_job b jid now = some ⟨Database.update_job_status b.store jid false now,
      b.active_jobs.map (fun p => if p.1 = jid then (p.1, false) else p)⟩ := by
  unfold stop_job
  rw [hj]

/-- `jobActive` as persisted by a stop at time `t`. -/
def jobStopped (t : Nat) : Job := ⟨1, 10, 20, 5, 50, 3, 15, 60, "all", "", "", "", false, 9, 0, t⟩

/-- The bot state holding the active job 5 with a registered runner flag. -/
def botC10 : BotState := ⟨⟨[(5, jobActive)], []⟩, [(5, true)]⟩

/-- C10 as stated is false in its last part: a second stop does not leave the
store exactly as the first did, because every stop refreshes `updated_at`. -/
theorem c10_counterexample :
    stop_job botC10 5 1 = some ⟨⟨[(5, jobStopped 1)], []⟩, [(5, false)]⟩
    ∧ stop_job ⟨⟨[(5, jobStopped 1)], []⟩, [(5, false)]⟩ 5 2 ≠
        some ⟨⟨[(5, jobStopped 1)], []⟩, [(5, false)]⟩ := by
  decide

/-- C10 amended: stop on an existing job always succeeds and persists
`is_active := false` unconditionally — also when the job is already inactive
or no runner flag is registered — touching no other job; it is idempotent up
to the `updated_at` timestamp: a second stop yields exactly the state of a
single stop performed at the second time. -/
theorem c10_amended_stop (b : BotState) (jid t1 t2 : Nat) (job : Job)
    (hj : Database.get_job b.store jid = some job) :
    stop_job b jid t1 = some ⟨Database.update_job_status b.store jid false t1,
        b.active_jobs.map (fun p => if p.1 = jid then (p.1, false) else p)⟩
    ∧ Database.get_job (Database.update_job_status b.store jid false t1) jid =
        some { job with is_active := false, updated_at := t1 }
    ∧ (∀ j2, j2 ≠ jid →
        Database.get_job (Database.update_job_status b.store jid false t1) j2 =
          Database.get_job b.store j2)
    ∧ stop_job ⟨Database.update_job_status b.store jid false t1,
        b.active_jobs.map (fun p => if p.1 = jid then (p.1, false) else p)⟩ jid t2 =
        stop_job b jid t2 := by
  have h1 : Database.get_job (Database.update_job_status b.store jid false t1) jid =
      some { job with is_active := false, updated_at := t1 } := by
    rw [get_job_update_status, hj]
    rfl
  refine ⟨stop_job_some b jid t1 job hj, h1, ?_, ?_⟩
  · intro j2 hne
    exact get_job_update_status_other b.store jid j2 false t1 hne
  · rw [stop_job_some _ jid t2 _ h1, stop_job_some b jid t2 job hj]
    have hstore : Database.update_job_status
        (Database.update_job_status b.store jid false t1) jid false t2 =
        Database.update_job_status b.store jid false t2 :=
      update_status_update_status b.store jid false false t1 t2
    have hreg : ((b.active_jobs.map (fun p => if p.1 = jid then (p.1, false) else p)).map
        (fun p => if p.1 = jid then (p.1, false) else p)) =
        b.active_jobs.map (fun p => if p.1 = jid then (p.1, false) else p) :=
      keyed_update_update b.active_jobs jid (fun _ => false) (fun _ => false)
    rw [hstore, hreg]

theorem c10_amended_witness :
    Database.get_job botC10.store 5 = some jobActive
    ∧ stop_job botC10 5 1 = some ⟨Database.update_job_status botC10.store 5 false 1,
        botC10.active_jobs.map (fun p => if p.1 = 5 then (p.1, false) else p)⟩
    ∧ stop_job ⟨Database.update_job_status botC10.store 5 false 1,
        botC10.active_jobs.map (fun p => if p.1 = 5 then (p.1, false) else p)⟩ 5 2 =
        stop_job botC10 5 2 :=
  ⟨by decide, (c10_amended_stop botC10 5 1 2 jobActive (by decide)).1,
   (c10_amended_stop botC10 5 1 2 jobActive (by decide)).2.2.2⟩

end AutoPosting
